import Mathlib

/-!
# Verification of the misp-mcp correlation engine, bulk executor and gateway client

Shallow embedding of the core logic of the `misp-mcp` repository:

* `src/client.ts` — the gateway client (`MispClient`): request classification,
  search-body construction, create-then-tag-then-refetch pipelines;
* `src/tools/attributes.ts` — the bulk attribute executor
  (`misp_add_attributes_bulk`);
* the correlation tools (`misp_correlate`, `misp_get_related_events`).

JavaScript `Map` objects (insertion-ordered) are embedded as association
lists; `Array.prototype.sort`, which ECMA-262 requires to be stable, is
embedded as a stable insertion sort; JSON values and the platform's
`JSON.parse` are embedded as an inductive `Js` type and an abstract parse
oracle.  Remote calls are embedded as oracle functions supplied as
parameters, and the sequence of remote calls a client method issues is
made explicit as a call trace.
-/

namespace MispMcp

/-- A related-attribute record surfaced by the platform correlation index:
an entry of `MispAttribute.RelatedAttribute` in `src/types.ts`. -/
structure RelTuple where
  id : String
  value : String
  type : String
  event_id : String
deriving Repr, DecidableEq

/-- The fields of a returned MISP attribute that the correlation engine
reads (`MispAttribute` in `src/types.ts`); `eventInfo` models the optional
nested `Event?.info` and `relatedAttribute` the optional
`RelatedAttribute` array. -/
structure MispAttr where
  id : String
  event_id : String
  type : String
  category : String
  value : String
  to_ids : Bool
  eventInfo : Option String
  relatedAttribute : Option (List RelTuple)
deriving Repr, DecidableEq

/-- JavaScript `x?.info || "Unknown"`: absent or empty string falls back to
`"Unknown"` (empty strings are falsy in JavaScript). -/
def orUnknown : Option String → String
  | none => "Unknown"
  | some s => if s = "" then "Unknown" else s

/-! ## Value correlation (`misp_correlate`, src/tools/correlation.ts) -/

/-- The projection of an attribute pushed into its event group by the
`misp_correlate` handler. -/
structure AttrSummary where
  id : String
  type : String
  category : String
  value : String
deriving Repr, DecidableEq

/-- One entry of the `misp_correlate` handler's `eventMap`. -/
structure EventGroup where
  event_id : String
  event_info : String
  attributes : List AttrSummary
deriving Repr, DecidableEq

def attrSummary (a : MispAttr) : AttrSummary :=
  { id := a.id, type := a.type, category := a.category, value := a.value }

/-- One iteration of the `for (const attr of attributes)` grouping loop:
if the event id is already a key of the map, push the summary onto that
group, otherwise append a fresh group (JavaScript `Map.set` appends new
keys in insertion order). -/
def addToEventMap (gs : List EventGroup) (a : MispAttr) : List EventGroup :=
  if gs.any (fun g => g.event_id == a.event_id) then
    gs.map (fun g =>
      if g.event_id == a.event_id then
        { g with attributes := g.attributes ++ [attrSummary a] }
      else g)
  else
    gs ++ [{ event_id := a.event_id, event_info := orUnknown a.eventInfo,
             attributes := [attrSummary a] }]

/-- The handler's `eventMap` after the grouping loop, as an
insertion-ordered association list. -/
def eventMap (attrs : List MispAttr) : List EventGroup :=
  attrs.foldl addToEventMap []

/-- A correlation tuple `{value, type, event_id}` as pushed by the
`misp_correlate` handler from a `RelatedAttribute` entry. -/
structure Correlation where
  value : String
  type : String
  event_id : String
deriving Repr, DecidableEq

/-- The tuples contributed by one attribute: nothing when
`RelatedAttribute` is absent, one tuple per entry otherwise. -/
def attrCorrelations (a : MispAttr) : List Correlation :=
  match a.relatedAttribute with
  | none => []
  | some rels =>
      rels.map (fun r => { value := r.value, type := r.type, event_id := r.event_id })

/-- The handler's `correlations` accumulation loop
(`for attr / for rel: correlations.push(...)`). -/
def collectCorrelations (attrs : List MispAttr) : List Correlation :=
  attrs.foldl (fun acc a => acc ++ attrCorrelations a) []

/-- The result object built by `misp_correlate`. -/
structure CorrelateResult where
  searched_value : String
  found_in_events : List EventGroup
  total_events : Nat
  total_attributes : Nat
  correlations : Option (List Correlation)
deriving Repr, DecidableEq

/-- The `misp_correlate` handler on a search response: `none` models the
early `No results found` return for an empty response, otherwise the
result object (`correlations` is `undefined` — here `none` — when the
collected list is empty). -/
def correlate (value : String) (attrs : List MispAttr) : Option CorrelateResult :=
  if attrs.isEmpty then none
  else
    some { searched_value := value
           found_in_events := eventMap attrs
           total_events := (eventMap attrs).length
           total_attributes := attrs.length
           correlations :=
             let cs := collectCorrelations attrs
             if cs.length > 0 then some cs else none }

/-- Spec-side first-occurrence deduplication: the order in which a
JavaScript `Map` keyed by event id enumerates its keys. -/
def firstDedup (l : List String) : List String :=
  l.foldl (fun acc x => if x ∈ acc then acc else acc ++ [x]) []

/-- Invariant of the `misp_correlate` grouping loop relating the map state
`gs` to the attributes already processed: keys are distinct, every
processed attribute's event id is a key, and each group holds exactly the
summaries of the processed attributes of its event, in processed order. -/
def GroupsInv (processed : List MispAttr) (gs : List EventGroup) : Prop :=
  (gs.map (fun g => g.event_id)).Nodup ∧
  (∀ x ∈ processed, x.event_id ∈ gs.map (fun g => g.event_id)) ∧
  (∀ g ∈ gs, g.attributes =
      (processed.filter (fun x => x.event_id == g.event_id)).map attrSummary)

/-- Concrete search-response attribute used to instantiate the value
correlation theorem (the spec's `10.0.0.1` scenario). -/
def wAttr1 : MispAttr :=
  { id := "1", event_id := "42", type := "ip-dst", category := "Network activity",
    value := "10.0.0.1", to_ids := true, eventInfo := some "campaign A",
    relatedAttribute :=
      some [{ id := "9", value := "10.0.0.1", type := "ip-dst", event_id := "43" }] }

/-- Second concrete search-response attribute for the same scenario. -/
def wAttr2 : MispAttr :=
  { id := "2", event_id := "43", type := "ip-dst", category := "Network activity",
    value := "10.0.0.1", to_ids := false, eventInfo := none,
    relatedAttribute := none }

/-- The result `correlate` computes on the concrete scenario. -/
def wRes : CorrelateResult :=
  { searched_value := "10.0.0.1"
    found_in_events :=
      [{ event_id := "42", event_info := "campaign A",
         attributes := [attrSummary wAttr1] },
       { event_id := "43", event_info := "Unknown",
         attributes := [attrSummary wAttr2] }]
    total_events := 2
    total_attributes := 2
    correlations :=
      some [{ value := "10.0.0.1", type := "ip-dst", event_id := "43" }] }

/-! ## Event-relation discovery (`misp_get_related_events`) -/

/-- One entry of the handler's `relatedMap`. -/
structure RelEntry where
  event_id : String
  event_info : String
  overlapping_iocs : List String
  correlation_count : Nat
deriving Repr, DecidableEq

/-- JavaScript `Map.set` on an insertion-ordered map: overwrite in place
when the key exists, append otherwise. -/
def mapSet (st : List RelEntry) (e : RelEntry) : List RelEntry :=
  if st.any (fun x => x.event_id == e.event_id) then
    st.map (fun x => if x.event_id == e.event_id then e else x)
  else st ++ [e]

/-- Seeding of `relatedMap` from the source event's `RelatedEvent`
back-references (pairs of id and info): one entry per back-reference with
an empty overlap set and a zero correlation count. -/
def seedRelated (rels : List (String × String)) : List RelEntry :=
  rels.foldl
    (fun st r => mapSet st
      { event_id := r.1, event_info := r.2,
        overlapping_iocs := [], correlation_count := 0 }) []

/-- The entry created for a not-yet-seen candidate event
(`relatedMap.set(match.event_id, {event_id, event_info, overlapping_iocs:
[], correlation_count: 0})`). -/
def freshEntry (m : MispAttr) : RelEntry :=
  { event_id := m.event_id, event_info := orUnknown m.eventInfo,
    overlapping_iocs := [], correlation_count := 0 }

/-- The `if (!relatedMap.has(match.event_id)) relatedMap.set(...)` guard:
create the entry only when the key is missing. -/
def ensureEntry (st : List RelEntry) (m : MispAttr) : List RelEntry :=
  if st.any (fun x => x.event_id == m.event_id) then st
  else st ++ [freshEntry m]

/-- The in-place mutation of the match's entry: push the searched value
onto `overlapping_iocs` only when not already included, and always
increment `correlation_count`. -/
def updEntry (value mid : String) (e : RelEntry) : RelEntry :=
  if e.event_id == mid then
    { e with
      overlapping_iocs :=
        if value ∈ e.overlapping_iocs then e.overlapping_iocs
        else e.overlapping_iocs ++ [value],
      correlation_count := e.correlation_count + 1 }
  else e

/-- Processing of one match inside the per-value search loop: matches from
the source event are skipped entirely; otherwise an entry for the match's
event is created if missing and then mutated in place. -/
def relStep (sourceId value : String) (st : List RelEntry) (m : MispAttr) :
    List RelEntry :=
  if m.event_id == sourceId then st
  else (ensureEntry st m).map (updEntry value m.event_id)

/-- The inner `for (const match of matches)` loop for one searched value. -/
def runValue (sourceId value : String) (ms : List MispAttr)
    (st : List RelEntry) : List RelEntry :=
  ms.foldl (relStep sourceId value) st

/-- The outer `for (const value of valuesToSearch)` loop; `search` is the
remote `searchAttributes` oracle for this invocation. -/
def runSearchLoop (sourceId : String) (search : String → List MispAttr)
    (values : List String) (st : List RelEntry) : List RelEntry :=
  values.foldl (fun st v => runValue sourceId v (search v) st) st

/-- The values selected for fan-out search: values of the first at most 20
`to_ids`-flagged attributes of the source event, in response order
(`filter(to_ids).slice(0, 20).map(value)`). -/
def valuesToSearch (eventAttributes : List MispAttr) : List String :=
  ((eventAttributes.filter (fun a => a.to_ids)).take 20).map (fun a => a.value)

/-- The trace of search calls the fan-out loop issues: each iteration of
the loop performs exactly one `searchAttributes` call for its value. -/
def relatedSearchCalls (eventAttributes : List MispAttr) : List String :=
  (valuesToSearch eventAttributes).foldl (fun acc v => acc ++ [v]) []

/-- Descending-by-count insertion keeping earlier elements first among
equal counts: the inserted element goes before the first element whose
count does not exceed it. -/
def insertByCount (e : RelEntry) : List RelEntry → List RelEntry
  | [] => [e]
  | x :: xs =>
      if x.correlation_count ≤ e.correlation_count then e :: x :: xs
      else x :: insertByCount e xs

/-- The final `sort((a, b) => b.correlation_count - a.correlation_count)`.
ECMA-262 requires `Array.prototype.sort` to be stable, and the stable
descending sort of a list is unique, so the stable insertion sort is an
exact model of it. -/
def sortByCountDesc (l : List RelEntry) : List RelEntry :=
  l.foldr insertByCount []

/-- The candidate list `misp_get_related_events` returns: seed from
back-references, run the bounded fan-out search loop, sort by descending
correlation count. -/
def relatedEvents (sourceId : String) (rels : List (String × String))
    (eventAttributes : List MispAttr) (search : String → List MispAttr) :
    List RelEntry :=
  sortByCountDesc
    (runSearchLoop sourceId search (valuesToSearch eventAttributes)
      (seedRelated rels))

/-- The correlation count an entry should end with: one per matching
attribute occurrence across all searched values, none at the source. -/
def occCount (eid sourceId : String) (values : List String)
    (search : String → List MispAttr) : Nat :=
  if eid = sourceId then 0
  else (values.map
    (fun v => ((search v).filter (fun m => m.event_id == eid)).length)).sum

/-- First count held against key `eid`, zero when absent. -/
def lookupCount (st : List RelEntry) (eid : String) : Nat :=
  match st.find? (fun e => e.event_id == eid) with
  | some e => e.correlation_count
  | none => 0

/-! ## Attribute search body construction (`MispClient.searchAttributes`) -/

/-- JavaScript truthiness test for an optional string field
(`if (params.value) body.value = params.value`): absent and empty are both
skipped. -/
def truthyStr : Option String → Option String
  | none => none
  | some s => if s = "" then none else some s

/-- The parameters `searchAttributes` accepts. -/
structure AttrSearchParams where
  value : Option String
  type : Option String
  category : Option String
  tags : Option (List String)
  to_ids : Option Bool
  includeCorrelations : Bool
  last : Option String
  limit : Option Nat
deriving Repr, DecidableEq

/-- The request body `searchAttributes` posts to `/attributes/restSearch`:
`returnFormat` and `limit` are always present (`limit: params.limit ?? 50`),
boolean filters become 0/1 integers, unset parameters are omitted. -/
structure AttrSearchBody where
  returnFormat : String
  limit : Nat
  value : Option String
  type : Option String
  category : Option String
  tags : Option (List String)
  to_ids : Option Nat
  includeCorrelations : Option Nat
  last : Option String
deriving Repr, DecidableEq

def buildAttrSearchBody (p : AttrSearchParams) : AttrSearchBody :=
  { returnFormat := "json"
    limit := p.limit.getD 50
    value := truthyStr p.value
    type := truthyStr p.type
    category := truthyStr p.category
    tags := p.tags
    to_ids := p.to_ids.map (fun b => if b then 1 else 0)
    includeCorrelations := if p.includeCorrelations then some 1 else none
    last := truthyStr p.last }

/-- The parameter set `misp_correlate` passes to `searchAttributes`
(`{ value, includeCorrelations: true }`; no limit). -/
def correlateSearchParams (value : String) : AttrSearchParams :=
  { value := some value, type := none, category := none, tags := none,
    to_ids := none, includeCorrelations := true, last := none, limit := none }

/-- The parameter set each fan-out search of `misp_get_related_events`
passes to `searchAttributes` (identical shape; no limit). -/
def relatedSearchParams (value : String) : AttrSearchParams :=
  { value := some value, type := none, category := none, tags := none,
    to_ids := none, includeCorrelations := true, last := none, limit := none }

/-- Concrete match for the `findRelated` scenario: an attribute of event
43 holding the searched value. -/
def wMatch : MispAttr :=
  { id := "7", event_id := "43", type := "domain", category := "Network activity",
    value := "evil.com", to_ids := true, eventInfo := some "campaign B",
    relatedAttribute := none }

/-- Concrete search oracle for the `findRelated` scenario: the value
`evil.com` matches exactly `wMatch`, everything else matches nothing. -/
def wSearch : String → List MispAttr :=
  fun v => if v = "evil.com" then [wMatch] else []

/-- The candidate entry the scenario produces for event 43. -/
def wEntry : RelEntry :=
  { event_id := "43", event_info := "campaign B",
    overlapping_iocs := ["evil.com"], correlation_count := 1 }

/-! ## Bulk attribute executor (`misp_add_attributes_bulk`,
src/tools/attributes.ts) -/

deriving instance DecidableEq for Except

/-- One unit of a bulk batch: the requested attribute plus the outcome of
its `client.addAttribute` call — the thrown error message, or the created
attribute's id. -/
structure BulkUnit where
  type : String
  value : String
  outcome : Except String String
deriving Repr, DecidableEq

/-- The per-item result row the executor pushes: on success
`{value, type, id}`, on a thrown error `{value, type, error}`. -/
structure BulkItemResult where
  value : String
  type : String
  id : Option String
  error : Option String
deriving Repr, DecidableEq

/-- JavaScript truthiness of an optional string field (`undefined` and the
empty string are falsy). -/
def isTruthy : Option String → Bool
  | none => false
  | some s => !(s == "")

/-- The row produced for one unit: the inner try/catch of the loop. -/
def bulkItemResult (u : BulkUnit) : BulkItemResult :=
  match u.outcome with
  | Except.ok i => { value := u.value, type := u.type, id := some i, error := none }
  | Except.error e => { value := u.value, type := u.type, id := none, error := some e }

/-- The `for (const attr of attributes)` loop: every unit is processed in
order and appends exactly one row; a failure is recorded in its row and
the loop continues. -/
def bulkResults (units : List BulkUnit) : List BulkItemResult :=
  units.foldl (fun acc u => acc ++ [bulkItemResult u]) []

/-- The report object the handler returns: `total` is the input length,
`succeeded` counts rows with a truthy `id`, `failed` counts rows with a
truthy `error`. -/
structure BulkReport where
  total : Nat
  succeeded : Nat
  failed : Nat
  results : List BulkItemResult
deriving Repr, DecidableEq

def bulkReport (units : List BulkUnit) : BulkReport :=
  let results := bulkResults units
  { total := units.length
    succeeded := (results.filter (fun r => isTruthy r.id)).length
    failed := (results.filter (fun r => isTruthy r.error)).length
    results := results }

/-- Whether a unit's remote call threw. -/
def isFailure : Except String String → Bool
  | Except.error _ => true
  | Except.ok _ => false

/-- A unit counted as succeeded: its call returned an id and the id is
truthy (non-empty). -/
def unitSucceedsTruthy (u : BulkUnit) : Bool :=
  match u.outcome with
  | Except.ok i => !(i == "")
  | Except.error _ => false

/-- A unit counted as failed: its call threw and the message is truthy. -/
def unitFailsTruthy (u : BulkUnit) : Bool :=
  match u.outcome with
  | Except.ok _ => false
  | Except.error e => !(e == "")

/-! ## Create-then-tag-then-refetch pipelines (`MispClient.createEvent`,
`MispClient.addAttribute`, src/client.ts) -/

/-- The remote calls a client method can issue, in order. -/
inductive ClientCall where
  | createEvent
  | tagEvent (eventId tag : String)
  | getEvent (eventId : String)
  | addAttribute (eventId : String)
  | attrTag (attributeId tag : String)
deriving Repr, DecidableEq

/-- The fields of a created event the pipeline reads. -/
structure EventLite where
  id : String
  info : String
deriving Repr, DecidableEq

/-- The fields of a created attribute the pipeline reads. -/
structure AttrLite where
  id : String
deriving Repr, DecidableEq

/-- The sequential `for (const tag of tags) await ...` loop: one tag call
per tag, in order; a failing call throws, so the loop stops at the first
failure and the error propagates (there is no try/catch around it).
Returns the calls issued and the propagated error, if any. -/
def tagLoop (mk : String → ClientCall) (res : String → Except String Unit) :
    List String → List ClientCall × Option String
  | [] => ([], none)
  | t :: ts =>
      match res t with
      | Except.ok _ =>
          let r := tagLoop mk res ts
          (mk t :: r.1, r.2)
      | Except.error e => ([mk t], some e)

/-- `MispClient.createEvent`: one create call; when tags were requested,
the create succeeded and the created event carries a (truthy) id, one tag
call per tag followed by a single refetch whose result is returned;
otherwise the create response is returned directly. -/
def createEventCalls (tags : List String) (createRes : Except String EventLite)
    (tagRes : String → String → Except String Unit)
    (fetchRes : String → Except String EventLite) :
    List ClientCall × Except String EventLite :=
  match createRes with
  | Except.error e => ([ClientCall.createEvent], Except.error e)
  | Except.ok ev =>
      if ¬ tags.isEmpty ∧ ¬ ev.id = "" then
        match tagLoop (fun t => ClientCall.tagEvent ev.id t)
            (fun t => tagRes ev.id t) tags with
        | (calls, none) =>
            (ClientCall.createEvent :: calls ++ [ClientCall.getEvent ev.id],
             fetchRes ev.id)
        | (calls, some e) =>
            (ClientCall.createEvent :: calls, Except.error e)
      else ([ClientCall.createEvent], Except.ok ev)

/-- `MispClient.addAttribute`: one create call; when tags were requested
and the created attribute carries a (truthy) id, one tag call per tag —
and then the original create response is returned (no refetch at all). -/
def addAttributeCalls (eventId : String) (tags : List String)
    (createRes : Except String AttrLite)
    (tagRes : String → String → Except String Unit) :
    List ClientCall × Except String AttrLite :=
  match createRes with
  | Except.error e => ([ClientCall.addAttribute eventId], Except.error e)
  | Except.ok attr =>
      if ¬ tags.isEmpty ∧ ¬ attr.id = "" then
        match tagLoop (fun t => ClientCall.attrTag attr.id t)
            (fun t => tagRes attr.id t) tags with
        | (calls, none) =>
            (ClientCall.addAttribute eventId :: calls, Except.ok attr)
        | (calls, some e) =>
            (ClientCall.addAttribute eventId :: calls, Except.error e)
      else ([ClientCall.addAttribute eventId], Except.ok attr)

/-! ## Gateway request classification (`MispClient.request`, src/client.ts)

The transport adapter (`fetch` with an `AbortController` whose `abort` is
scheduled by `setTimeout(timeout)`) is embedded as an outcome value: the
timer firing before a response aborts the fetch, which then rejects with
`AbortError` (`aborted` below); any other network-level rejection carries
a cause message (`netError`); otherwise a status and body text arrive.
`JSON.parse` is embedded as an abstract parse oracle returning a JSON
value (`Js`) or a parse failure. -/

inductive TransportOutcome where
  | success (status : Nat) (body : String)
  | aborted
  | netError (msg : String)
deriving Repr, DecidableEq

/-- A JSON value as `JSON.parse` produces. -/
inductive Js where
  | null
  | bool (b : Bool)
  | num (n : Int)
  | str (s : String)
  | arr (xs : List Js)
  | obj (fields : List (String × Js))

/-- Property access `value[k]` on a parsed JSON value: `none` models
JavaScript `undefined` (also for access on non-objects). -/
def jsGet : Js → String → Option Js
  | Js.obj fields, k => (fields.find? (fun f => f.1 == k)).map (fun f => f.2)
  | _, _ => none

/-- JavaScript falsiness of a JSON value. -/
def jsFalsy : Js → Bool
  | Js.null => true
  | Js.bool b => !b
  | Js.num n => n == 0
  | Js.str s => s == ""
  | _ => false

/-- The classified failures `request` can throw, one constructor per
throw site: timeout (carrying the configured duration), transport failure
(carrying the cause text), a non-2xx status (carrying status, the
status-table label, and the best-effort detail), a 2xx body that fails to
parse as JSON (carrying the 200-character snippet), and a runtime
`TypeError` raised by response postprocessing. -/
inductive MispError where
  | timeout (ms : Nat)
  | transport (msg : String)
  | httpError (status : Nat) (label : String) (detail : Js)
  | malformed (snippet : String)
  | jsError (msg : String)

/-- The fixed status→message table; anything else is `HTTP <status>`. -/
def statusLabel (status : Nat) : String :=
  if status = 401 then "Invalid API key or unauthorized"
  else if status = 403 then "Insufficient permissions"
  else if status = 404 then "Resource not found"
  else if status = 405 then "Method not allowed"
  else "HTTP " ++ toString status

/-- Best-effort detail for a non-2xx response:
`parsed.message || parsed.errors || text`, falling back to the raw text
when the body is not JSON (or the access throws). -/
def errDetail (parse : String → Option Js) (body : String) : Js :=
  match parse body with
  | none => Js.str body
  | some j =>
      match jsGet j "message" with
      | some m =>
          if jsFalsy m then
            match jsGet j "errors" with
            | some e2 => if jsFalsy e2 then Js.str body else e2
            | none => Js.str body
          else m
      | none =>
          match jsGet j "errors" with
          | some e2 => if jsFalsy e2 then Js.str body else e2
          | none => Js.str body

/-- `request` in its JSON overload (`rawResponse` absent/false): abort →
timeout error; network failure → transport error; non-2xx → status-table
error; 2xx body parsed as JSON or a malformed-response error. -/
def requestJson (timeoutMs : Nat) (parse : String → Option Js)
    (outcome : TransportOutcome) : Except MispError Js :=
  match outcome with
  | TransportOutcome.aborted => Except.error (MispError.timeout timeoutMs)
  | TransportOutcome.netError msg =>
      Except.error (MispError.transport ("MISP API request failed: " ++ msg))
  | TransportOutcome.success status body =>
      if 200 ≤ status ∧ status ≤ 299 then
        match parse body with
        | some j => Except.ok j
        | none => Except.error (MispError.malformed (body.take 200))
      else
        Except.error
          (MispError.httpError status (statusLabel status) (errDetail parse body))

/-- `request` in its raw-text overload (`rawResponse = true`): identical
classification, but a 2xx body is returned as text without parsing. -/
def requestRaw (timeoutMs : Nat) (parse : String → Option Js)
    (outcome : TransportOutcome) : Except MispError String :=
  match outcome with
  | TransportOutcome.aborted => Except.error (MispError.timeout timeoutMs)
  | TransportOutcome.netError msg =>
      Except.error (MispError.transport ("MISP API request failed: " ++ msg))
  | TransportOutcome.success status body =>
      if 200 ≤ status ∧ status ≤ 299 then Except.ok body
      else
        Except.error
          (MispError.httpError status (statusLabel status) (errDetail parse body))

/-- The postprocessing `searchEvents` applies to the parsed body:
`(data.response || []).map((r) => r.Event)` — an absent or falsy
`response` silently becomes the empty list; a non-array truthy `response`
would throw a runtime `TypeError` at `.map`; array elements lacking an
`Event` property yield `undefined` (embedded as `Js.null`). -/
def searchEventsExtract (data : Js) : Except String (List Js) :=
  match jsGet data "response" with
  | none => Except.ok []
  | some r =>
      if jsFalsy r then Except.ok []
      else
        match r with
        | Js.arr xs => Except.ok (xs.map (fun x => (jsGet x "Event").getD Js.null))
        | _ => Except.error "TypeError: response.map is not a function"

/-- `MispClient.searchEvents` end to end over one transport outcome. -/
def searchEvents (timeoutMs : Nat) (parse : String → Option Js)
    (outcome : TransportOutcome) : Except MispError (List Js) :=
  match requestJson timeoutMs parse outcome with
  | Except.error e => Except.error e
  | Except.ok data =>
      match searchEventsExtract data with
      | Except.ok evs => Except.ok evs
      | Except.error msg => Except.error (MispError.jsError msg)

/-- Concrete parse oracle for counterexamples: the body `{}` parses to
the empty JSON object, anything else fails to parse. -/
def parseEmptyObj : String → Option Js :=
  fun s => if s = "{}" then some (Js.obj []) else none

end MispMcp

namespace MispMcp

/-! ## Theorems: value correlation (C1) -/

theorem any_key_eq (gs : List EventGroup) (eid : String) :
    gs.any (fun g => g.event_id == eid) = true ↔ eid ∈ gs.map (fun g => g.event_id) := by
  rw [List.any_eq_true]
  simp only [beq_iff_eq, List.mem_map]

theorem addToEventMap_keys (gs : List EventGroup) (a : MispAttr) :
    (addToEventMap gs a).map (fun g => g.event_id) =
      if a.event_id ∈ gs.map (fun g => g.event_id) then gs.map (fun g => g.event_id)
      else gs.map (fun g => g.event_id) ++ [a.event_id] := by
  by_cases h : a.event_id ∈ gs.map (fun g => g.event_id)
  · have hany : gs.any (fun g => g.event_id == a.event_id) = true :=
      (any_key_eq gs a.event_id).2 h
    rw [if_pos h]
    simp only [addToEventMap, hany, if_true, List.map_map]
    apply List.map_congr_left
    intro g _
    by_cases hg : g.event_id = a.event_id <;> simp [hg]
  · have hany : ¬ gs.any (fun g => g.event_id == a.event_id) = true :=
      fun hc => h ((any_key_eq gs a.event_id).1 hc)
    rw [if_neg h]
    simp only [addToEventMap, if_neg hany]
    simp

theorem foldl_addToEventMap_keys (attrs : List MispAttr) :
    ∀ gs : List EventGroup,
      (attrs.foldl addToEventMap gs).map (fun g => g.event_id) =
        (attrs.map (fun a => a.event_id)).foldl
          (fun acc x => if x ∈ acc then acc else acc ++ [x])
          (gs.map (fun g => g.event_id)) := by
  induction attrs with
  | nil => intro gs; rfl
  | cons a rest ih =>
      intro gs
      simp only [List.foldl_cons, List.map_cons]
      rw [ih, addToEventMap_keys]

theorem eventMap_keys (attrs : List MispAttr) :
    (eventMap attrs).map (fun g => g.event_id) =
      firstDedup (attrs.map (fun a => a.event_id)) := by
  have h := foldl_addToEventMap_keys attrs []
  simpa [eventMap, firstDedup] using h

theorem firstDedupAux_nodup (l : List String) :
    ∀ acc : List String, acc.Nodup →
      (l.foldl (fun acc x => if x ∈ acc then acc else acc ++ [x]) acc).Nodup := by
  induction l with
  | nil => intro acc h; exact h
  | cons x rest ih =>
      intro acc h
      simp only [List.foldl_cons]
      by_cases hx : x ∈ acc
      · rw [if_pos hx]; exact ih acc h
      · rw [if_neg hx]
        refine ih _ ?_
        simp [List.nodup_append, h, hx]

theorem firstDedupAux_mem (l : List String) :
    ∀ acc y, (y ∈ l.foldl (fun acc x => if x ∈ acc then acc else acc ++ [x]) acc) ↔
      y ∈ acc ∨ y ∈ l := by
  induction l with
  | nil => simp
  | cons x rest ih =>
      intro acc y
      simp only [List.foldl_cons]
      by_cases hx : x ∈ acc
      · rw [if_pos hx, ih]
        constructor
        · rintro (h | h)
          · exact Or.inl h
          · exact Or.inr (List.mem_cons_of_mem _ h)
        · rintro (h | h)
          · exact Or.inl h
          · rcases List.mem_cons.1 h with h | h
            · exact Or.inl (h ▸ hx)
            · exact Or.inr h
      · rw [if_neg hx, ih]
        simp only [List.mem_append, List.mem_singleton, List.mem_cons]
        tauto

theorem firstDedup_length_eq_dedup (l : List String) :
    (firstDedup l).length = l.dedup.length := by
  have h1 : (firstDedup l).Nodup := firstDedupAux_nodup l [] List.nodup_nil
  have h2 : l.dedup.Nodup := List.nodup_dedup l
  have hperm : List.Perm (firstDedup l) l.dedup := by
    rw [List.perm_ext_iff_of_nodup h1 h2]
    intro a
    rw [List.mem_dedup]
    simpa [firstDedup] using firstDedupAux_mem l [] a
  exact hperm.length_eq

theorem groupsInv_step (processed : List MispAttr) (gs : List EventGroup) (a : MispAttr)
    (h : GroupsInv processed gs) : GroupsInv (processed ++ [a]) (addToEventMap gs a) := by
  obtain ⟨hnd, hcov, hcont⟩ := h
  by_cases hk : a.event_id ∈ gs.map (fun g => g.event_id)
  · have hany : gs.any (fun g => g.event_id == a.event_id) = true :=
      (any_key_eq gs a.event_id).2 hk
    refine ⟨?_, ?_, ?_⟩
    · rw [addToEventMap_keys, if_pos hk]; exact hnd
    · intro x hx
      rw [addToEventMap_keys, if_pos hk]
      rcases List.mem_append.1 hx with hx | hx
      · exact hcov x hx
      · rw [List.mem_singleton.1 hx]; exact hk
    · intro g hg
      simp only [addToEventMap, hany, if_true] at hg
      rcases List.mem_map.1 hg with ⟨g0, hg0, rfl⟩
      by_cases hgid : g0.event_id = a.event_id
      · have hbeq : (g0.event_id == a.event_id) = true := beq_iff_eq.2 hgid
        simp only [hbeq, if_true, List.filter_append, List.map_append]
        rw [hcont g0 hg0]
        have hsing : List.filter (fun x => x.event_id == g0.event_id) [a] = [a] := by
          simp [List.filter_singleton, hgid.symm]
        simp [hsing]
      · have hbeq : ¬ (g0.event_id == a.event_id) = true := by
          simp [hgid]
        simp only [if_neg hbeq, List.filter_append]
        rw [hcont g0 hg0]
        have hne : ¬ a.event_id = g0.event_id := fun hc => hgid hc.symm
        have hsing : List.filter (fun x => x.event_id == g0.event_id) [a] = [] := by
          simp [List.filter_singleton, hne]
        simp [hsing]
  · have hany : ¬ gs.any (fun g => g.event_id == a.event_id) = true :=
      fun hc => hk ((any_key_eq gs a.event_id).1 hc)
    have hstep : addToEventMap gs a =
        gs ++ [{ event_id := a.event_id, event_info := orUnknown a.eventInfo,
                 attributes := [attrSummary a] }] := by
      simp only [addToEventMap, if_neg hany]
    refine ⟨?_, ?_, ?_⟩
    · rw [hstep]
      simp only [List.map_append, List.map]
      rw [List.nodup_append]
      refine ⟨hnd, List.nodup_singleton _, ?_⟩
      intro x hx hx1
      rw [List.mem_singleton.1 hx1] at hx
      exact hk hx
    · intro x hx
      rw [hstep]
      simp only [List.map_append, List.map, List.mem_append, List.mem_singleton]
      rcases List.mem_append.1 hx with hx | hx
      · exact Or.inl (hcov x hx)
      · rw [List.mem_singleton.1 hx]; exact Or.inr rfl
    · intro g hg
      rw [hstep] at hg
      rcases List.mem_append.1 hg with hg | hg
      · have hgid : ¬ a.event_id = g.event_id := by
          intro hc
          exact hk (hc ▸ List.mem_map.2 ⟨g, hg, rfl⟩)
        rw [hcont g hg, List.filter_append]
        have hsing : List.filter (fun x => x.event_id == g.event_id) [a] = [] := by
          simp [List.filter_singleton, hgid]
        simp [hsing]
      · rw [List.mem_singleton.1 hg]
        have hnone : List.filter
            (fun x => x.event_id == (a.event_id : String)) processed = [] := by
          rw [List.filter_eq_nil_iff]
          intro x hx
          simp only [beq_iff_eq]
          intro hc
          exact hk (hc ▸ hcov x hx)
        simp only [List.filter_append]
        rw [hnone]
        simp [List.filter_singleton]

theorem groupsInv_foldl (attrs : List MispAttr) :
    ∀ processed gs, GroupsInv processed gs →
      GroupsInv (processed ++ attrs) (attrs.foldl addToEventMap gs) := by
  induction attrs with
  | nil => intro p gs h; simpa using h
  | cons a rest ih =>
      intro p gs h
      have h2 := ih (p ++ [a]) _ (groupsInv_step p gs a h)
      simpa using h2

theorem eventMap_inv (attrs : List MispAttr) : GroupsInv attrs (eventMap attrs) := by
  have h := groupsInv_foldl attrs [] [] ⟨List.nodup_nil, by simp, by simp⟩
  simpa [eventMap] using h

theorem collectCorrelations_eq (attrs : List MispAttr) :
    collectCorrelations attrs = attrs.flatMap attrCorrelations := by
  suffices h : ∀ acc, attrs.foldl (fun acc a => acc ++ attrCorrelations a) acc =
      acc ++ attrs.flatMap attrCorrelations by
    simpa [collectCorrelations] using h []
  induction attrs with
  | nil => simp
  | cons a rest ih => intro acc; simp [List.flatMap_cons, ih, List.append_assoc]

/-- C1: `misp_correlate` partitions the returned attributes by owning event
id (distinct keys, each group holding that event's attribute summaries in
response order, keys in first-occurrence order), reports `total_events` as
the number of distinct event ids and `total_attributes` as the number of
returned attributes, and sets `correlations` to the flat concatenation of
every attribute's related-attribute tuples with duplicates preserved,
absent (`none`) exactly when no such tuple exists. -/
theorem correlate_partitions (v : String) (attrs : List MispAttr) (r : CorrelateResult)
    (h : correlate v attrs = some r) :
    r.total_attributes = attrs.length ∧
    r.total_events = ((attrs.map (fun a => a.event_id)).dedup).length ∧
    (r.found_in_events.map (fun g => g.event_id)).Nodup ∧
    r.found_in_events.map (fun g => g.event_id) =
      firstDedup (attrs.map (fun a => a.event_id)) ∧
    (∀ g ∈ r.found_in_events,
        g.attributes = (attrs.filter (fun x => x.event_id == g.event_id)).map attrSummary) ∧
    r.correlations = (if attrs.flatMap attrCorrelations = [] then none
                      else some (attrs.flatMap attrCorrelations)) := by
  simp only [correlate] at h
  by_cases he : attrs.isEmpty
  · rw [if_pos he] at h; exact absurd h (by simp)
  · rw [if_neg he] at h
    have hr := Option.some.inj h
    obtain ⟨hnd, _, hcont⟩ := eventMap_inv attrs
    refine ⟨?_, ?_, ?_, ?_, ?_, ?_⟩
    · rw [← hr]
    · rw [← hr]
      show (eventMap attrs).length = _
      rw [← List.length_map (eventMap attrs) (fun g => g.event_id), eventMap_keys,
        firstDedup_length_eq_dedup]
    · rw [← hr]; exact hnd
    · rw [← hr]; exact eventMap_keys attrs
    · rw [← hr]; exact hcont
    · rw [← hr]
      show (if (collectCorrelations attrs).length > 0 then some (collectCorrelations attrs)
            else none) = _
      rw [collectCorrelations_eq]
      by_cases hc : attrs.flatMap attrCorrelations = []
      · simp [hc]
      · rw [if_neg hc, if_pos]
        exact List.length_pos.2 hc

/-- Witness for C1: on the spec's `10.0.0.1` scenario (two attributes in
events 42 and 43, one related tuple) the hypotheses hold and the theorem
yields the distinct-event count. -/
theorem correlate_partitions_witness :
    wRes.total_events = (([wAttr1, wAttr2].map (fun a => a.event_id)).dedup).length :=
  (correlate_partitions "10.0.0.1" [wAttr1, wAttr2] wRes (by decide)).2.1

/-! ## Theorems: fan-out cap (C3) -/

theorem foldl_push_eq (l : List String) :
    ∀ acc : List String, l.foldl (fun acc v => acc ++ [v]) acc = acc ++ l := by
  induction l with
  | nil => simp
  | cons x rest ih => intro acc; simp [ih, List.append_assoc]

/-- C3: event-relation discovery issues at most 20 value-search calls per
invocation, and the call trace is exactly the values of the first at most
20 detection-flagged attributes of the source event, in original order,
one call per selected value. -/
theorem related_search_cap (eventAttributes : List MispAttr) :
    (relatedSearchCalls eventAttributes).length ≤ 20 ∧
    relatedSearchCalls eventAttributes =
      ((eventAttributes.filter (fun a => a.to_ids)).map (fun a => a.value)).take 20 := by
  have htr : relatedSearchCalls eventAttributes = valuesToSearch eventAttributes := by
    have h := foldl_push_eq (valuesToSearch eventAttributes) []
    simpa [relatedSearchCalls] using h
  constructor
  · rw [htr]
    simp only [valuesToSearch, List.length_map, List.length_take]
    exact min_le_left _ _
  · rw [htr]
    simp [valuesToSearch, List.map_take]

/-! ## Theorems: stable ranking (C4) -/

theorem insertByCount_mem (e : RelEntry) (l : List RelEntry) (y : RelEntry) :
    y ∈ insertByCount e l ↔ y = e ∨ y ∈ l := by
  induction l with
  | nil => simp [insertByCount]
  | cons x xs ih =>
      simp only [insertByCount]
      by_cases h : x.correlation_count ≤ e.correlation_count
      · rw [if_pos h]
        simp only [List.mem_cons]
      · rw [if_neg h]
        simp only [List.mem_cons, ih]
        tauto

theorem insertByCount_perm (e : RelEntry) (l : List RelEntry) :
    List.Perm (insertByCount e l) (e :: l) := by
  induction l with
  | nil => exact List.Perm.refl _
  | cons x xs ih =>
      simp only [insertByCount]
      by_cases h : x.correlation_count ≤ e.correlation_count
      · rw [if_pos h]
      · rw [if_neg h]
        exact (ih.cons x).trans (List.Perm.swap e x xs)

theorem insertByCount_sorted (e : RelEntry) (l : List RelEntry)
    (h : l.Pairwise (fun a b => b.correlation_count ≤ a.correlation_count)) :
    (insertByCount e l).Pairwise
      (fun a b => b.correlation_count ≤ a.correlation_count) := by
  induction l with
  | nil => simp [insertByCount]
  | cons x xs ih =>
      simp only [insertByCount]
      have hx := List.pairwise_cons.1 h
      by_cases hle : x.correlation_count ≤ e.correlation_count
      · rw [if_pos hle]
        refine List.Pairwise.cons ?_ h
        intro y hy
        rcases List.mem_cons.1 hy with rfl | hy
        · exact hle
        · exact le_trans (hx.1 y hy) hle
      · rw [if_neg hle]
        refine List.Pairwise.cons ?_ (ih hx.2)
        intro y hy
        rcases (insertByCount_mem e xs y).1 hy with rfl | hy
        · exact le_of_lt (lt_of_not_le hle)
        · exact hx.1 y hy

theorem insertByCount_filter (e : RelEntry) (c : Nat) (l : List RelEntry) :
    (insertByCount e l).filter (fun x => x.correlation_count == c) =
      if e.correlation_count = c
      then e :: l.filter (fun x => x.correlation_count == c)
      else l.filter (fun x => x.correlation_count == c) := by
  induction l with
  | nil =>
      by_cases h : e.correlation_count = c <;>
        simp [insertByCount, List.filter_singleton, h]
  | cons x xs ih =>
      simp only [insertByCount]
      by_cases hle : x.correlation_count ≤ e.correlation_count
      · rw [if_pos hle]
        by_cases h : e.correlation_count = c <;>
          simp [List.filter_cons, h]
      · rw [if_neg hle]
        by_cases hx : x.correlation_count = c
        · by_cases h : e.correlation_count = c
          · exfalso; exact hle (le_of_eq (hx.trans h.symm))
          · simp [List.filter_cons, hx, h, ih]
        · simp [List.filter_cons, hx, ih]

theorem sortByCountDesc_sorted (l : List RelEntry) :
    (sortByCountDesc l).Pairwise
      (fun a b => b.correlation_count ≤ a.correlation_count) := by
  induction l with
  | nil => simp [sortByCountDesc]
  | cons x xs ih => exact insertByCount_sorted x _ ih

theorem sortByCountDesc_filter (l : List RelEntry) (c : Nat) :
    (sortByCountDesc l).filter (fun x => x.correlation_count == c) =
      l.filter (fun x => x.correlation_count == c) := by
  induction l with
  | nil => rfl
  | cons x xs ih =>
      show (insertByCount x (sortByCountDesc xs)).filter _ = _
      rw [insertByCount_filter]
      by_cases h : x.correlation_count = c
      · rw [if_pos h, ih, List.filter_cons]; simp [h]
      · rw [if_neg h, ih, List.filter_cons]; simp [h]

theorem sortByCountDesc_perm (l : List RelEntry) :
    List.Perm (sortByCountDesc l) l := by
  induction l with
  | nil => exact List.Perm.refl _
  | cons x xs ih =>
      show List.Perm (insertByCount x (sortByCountDesc xs)) (x :: xs)
      exact (insertByCount_perm x _).trans (ih.cons x)

/-! ## Theorems: overlap deduplication and occurrence counting (C2) -/

theorem any_key_rel (st : List RelEntry) (eid : String) :
    st.any (fun x => x.event_id == eid) = true ↔
      eid ∈ st.map (fun x => x.event_id) := by
  rw [List.any_eq_true]
  simp only [beq_iff_eq, List.mem_map]

theorem updEntry_key (v mid : String) (e : RelEntry) :
    (updEntry v mid e).event_id = e.event_id := by
  unfold updEntry
  split <;> rfl

theorem keys_map_upd (v mid : String) (st : List RelEntry) :
    (st.map (updEntry v mid)).map (fun e => e.event_id) =
      st.map (fun e => e.event_id) := by
  rw [List.map_map]
  exact List.map_congr_left (fun a _ => updEntry_key v mid a)

theorem find?_map_upd (v mid : String) (st : List RelEntry) (eid : String) :
    (st.map (updEntry v mid)).find? (fun e => e.event_id == eid) =
      (st.find? (fun e => e.event_id == eid)).map (updEntry v mid) := by
  induction st with
  | nil => rfl
  | cons x xs ih =>
      by_cases hp : (x.event_id == eid) = true
      · have hp2 : ((updEntry v mid x).event_id == eid) = true := by
          rw [updEntry_key]; exact hp
        simp only [List.map_cons, List.find?_cons, hp, hp2]
        rfl
      · have hp2 : ((updEntry v mid x).event_id == eid) = false := by
          rw [updEntry_key]; exact Bool.not_eq_true _ ▸ hp
        have hp3 : (x.event_id == eid) = false := Bool.not_eq_true _ ▸ hp
        simp only [List.map_cons, List.find?_cons, hp2, hp3, ih]

theorem lookupCount_ensure (st : List RelEntry) (m : MispAttr) (eid : String) :
    lookupCount (ensureEntry st m) eid = lookupCount st eid := by
  by_cases hpres : st.any (fun x => x.event_id == m.event_id) = true
  · simp [ensureEntry, hpres]
  · simp only [ensureEntry, if_neg hpres]
    unfold lookupCount
    rw [List.find?_append]
    cases hf : st.find? (fun e => e.event_id == eid) with
    | some e => simp [hf]
    | none =>
        by_cases he : (m.event_id == eid) = true
        · simp [hf, List.find?, freshEntry, he]
        · simp [hf, List.find?, freshEntry, he]

theorem ensure_has (st : List RelEntry) (m : MispAttr) :
    (ensureEntry st m).any (fun x => x.event_id == m.event_id) = true := by
  by_cases hpres : st.any (fun x => x.event_id == m.event_id) = true
  · simp [ensureEntry, hpres]
  · simp [ensureEntry, hpres, List.any_append, freshEntry]

theorem lookupCount_update (v mid : String) (st : List RelEntry) (eid : String)
    (hhas : st.any (fun x => x.event_id == mid) = true) :
    lookupCount (st.map (updEntry v mid)) eid =
      lookupCount st eid + (if mid = eid then 1 else 0) := by
  unfold lookupCount
  rw [find?_map_upd]
  by_cases heq : mid = eid
  · subst heq
    have hsome : ∃ e, st.find? (fun x => x.event_id == mid) = some e := by
      cases hf : st.find? (fun x => x.event_id == mid) with
      | some e => exact ⟨e, rfl⟩
      | none =>
          rw [List.find?_eq_none] at hf
          rw [List.any_eq_true] at hhas
          obtain ⟨x, hx, hp⟩ := hhas
          exact absurd hp (hf x hx)
    obtain ⟨e, hf⟩ := hsome
    have hp := List.find?_some hf
    rw [hf]
    simp [updEntry, hp]
  · cases hf : st.find? (fun x => x.event_id == eid) with
    | none => simp [hf, heq]
    | some e =>
        have hp := List.find?_some hf
        rw [beq_iff_eq] at hp
        have hne : ¬ (e.event_id == mid) = true := by
          rw [beq_iff_eq, hp]
          exact fun hc => heq hc.symm
        simp [hf, updEntry, hne, heq]

theorem relStep_count (s v : String) (st : List RelEntry) (m : MispAttr)
    (eid : String) :
    lookupCount (relStep s v st m) eid =
      lookupCount st eid +
        (if m.event_id = eid ∧ ¬ m.event_id = s then 1 else 0) := by
  by_cases hms : m.event_id = s
  · have hbeq : (m.event_id == s) = true := beq_iff_eq.2 hms
    simp [relStep, hbeq, hms]
  · have hbeq : ¬ (m.event_id == s) = true := by simp [hms]
    simp only [relStep, if_neg hbeq]
    rw [lookupCount_update _ _ _ _ (ensure_has st m), lookupCount_ensure]
    by_cases heq : m.event_id = eid
    · subst heq
      simp [hms]
    · simp [heq]

theorem runValue_nil (s v : String) (st : List RelEntry) :
    runValue s v [] st = st := rfl

theorem runValue_cons (s v : String) (m : MispAttr) (ms : List MispAttr)
    (st : List RelEntry) :
    runValue s v (m :: ms) st = runValue s v ms (relStep s v st m) := rfl

theorem runSearchLoop_nil (s : String) (f : String → List MispAttr)
    (st : List RelEntry) : runSearchLoop s f [] st = st := rfl

theorem runSearchLoop_cons (s : String) (f : String → List MispAttr)
    (v : String) (vs : List String) (st : List RelEntry) :
    runSearchLoop s f (v :: vs) st =
      runSearchLoop s f vs (runValue s v (f v) st) := rfl

theorem runValue_count (s v : String) (ms : List MispAttr) :
    ∀ (st : List RelEntry) (eid : String),
      lookupCount (runValue s v ms st) eid =
        lookupCount st eid +
          (if eid = s then 0
           else (ms.filter (fun m => m.event_id == eid)).length) := by
  induction ms with
  | nil => intro st eid; by_cases h : eid = s <;> simp [runValue_nil, h]
  | cons m rest ih =>
      intro st eid
      rw [runValue_cons, ih, relStep_count]
      by_cases hes : eid = s
      · subst hes
        have hc : ¬ (m.event_id = eid ∧ ¬ m.event_id = eid) := by tauto
        simp [hc]
      · by_cases hm : m.event_id = eid
        · have hc : m.event_id = eid ∧ ¬ m.event_id = s := by
            refine ⟨hm, fun hcon => hes ?_⟩
            rw [← hm, hcon]
          rw [if_pos hc, if_neg hes, if_neg hes]
          have hfc : List.filter (fun m => m.event_id == eid) (m :: rest) =
              m :: rest.filter (fun m => m.event_id == eid) := by
            simp [List.filter_cons, hm]
          rw [hfc]
          simp only [List.length_cons]
          omega
        · have hc : ¬ (m.event_id = eid ∧ ¬ m.event_id = s) := fun hcon => hm hcon.1
          rw [if_neg hc, if_neg hes, if_neg hes]
          have hfc : List.filter (fun m => m.event_id == eid) (m :: rest) =
              rest.filter (fun m => m.event_id == eid) := by
            simp [List.filter_cons, hm]
          rw [hfc]
          omega

theorem runSearchLoop_count (s : String) (f : String → List MispAttr)
    (values : List String) :
    ∀ (st : List RelEntry) (eid : String),
      lookupCount (runSearchLoop s f values st) eid =
        lookupCount st eid +
          (if eid = s then 0
           else (values.map
             (fun v => ((f v).filter (fun m => m.event_id == eid)).length)).sum) := by
  induction values with
  | nil => intro st eid; by_cases h : eid = s <;> simp [runSearchLoop_nil, h]
  | cons v rest ih =>
      intro st eid
      rw [runSearchLoop_cons, ih, runValue_count]
      by_cases hes : eid = s
      · simp [hes]
      · simp only [if_neg hes, List.map_cons, List.sum_cons]
        omega

theorem mapSet_mem (st : List RelEntry) (x y : RelEntry)
    (hy : y ∈ mapSet st x) : y ∈ st ∨ y = x := by
  unfold mapSet at hy
  by_cases hp : st.any (fun z => z.event_id == x.event_id) = true
  · rw [if_pos hp] at hy
    rcases List.mem_map.1 hy with ⟨z, hz, rfl⟩
    by_cases hzx : (z.event_id == x.event_id) = true
    · rw [if_pos hzx]; exact Or.inr rfl
    · rw [if_neg hzx]; exact Or.inl hz
  · rw [if_neg hp] at hy
    rcases List.mem_append.1 hy with hy | hy
    · exact Or.inl hy
    · exact Or.inr (List.mem_singleton.1 hy)

theorem seed_fold_zero (rels : List (String × String)) :
    ∀ st : List RelEntry,
      (∀ e ∈ st, e.correlation_count = 0 ∧ e.overlapping_iocs = []) →
      ∀ e ∈ rels.foldl
        (fun st r => mapSet st
          { event_id := r.1, event_info := r.2,
            overlapping_iocs := [], correlation_count := 0 }) st,
        e.correlation_count = 0 ∧ e.overlapping_iocs = [] := by
  induction rels with
  | nil => intro st h; exact h
  | cons r rest ih =>
      intro st h
      refine ih _ ?_
      intro e he
      rcases mapSet_mem _ _ _ he with he | rfl
      · exact h e he
      · exact ⟨rfl, rfl⟩

theorem seed_zero (rels : List (String × String)) :
    ∀ e ∈ seedRelated rels, e.correlation_count = 0 ∧ e.overlapping_iocs = [] :=
  seed_fold_zero rels [] (by simp)

theorem lookupCount_seed (rels : List (String × String)) (eid : String) :
    lookupCount (seedRelated rels) eid = 0 := by
  unfold lookupCount
  cases hf : (seedRelated rels).find? (fun e => e.event_id == eid) with
  | none => rfl
  | some e => exact (seed_zero rels e (List.mem_of_find?_eq_some hf)).1

theorem nodup_append_singleton {l : List String} {a : String}
    (h : l.Nodup) (ha : ¬ a ∈ l) : (l ++ [a]).Nodup := by
  rw [List.nodup_append]
  exact ⟨h, List.nodup_singleton a,
    fun y hy hy1 => ha ((List.mem_singleton.1 hy1) ▸ hy)⟩

theorem keys_ensure (st : List RelEntry) (m : MispAttr) :
    (ensureEntry st m).map (fun e => e.event_id) =
      if m.event_id ∈ st.map (fun e => e.event_id) then
        st.map (fun e => e.event_id)
      else st.map (fun e => e.event_id) ++ [m.event_id] := by
  by_cases h : m.event_id ∈ st.map (fun e => e.event_id)
  · rw [if_pos h]
    simp [ensureEntry, (any_key_rel st m.event_id).2 h]
  · rw [if_neg h]
    have hany : ¬ st.any (fun x => x.event_id == m.event_id) = true :=
      fun hc => h ((any_key_rel st m.event_id).1 hc)
    simp only [ensureEntry, if_neg hany, List.map_append]
    simp [freshEntry]

theorem keys_relStep (s v : String) (st : List RelEntry) (m : MispAttr) :
    (relStep s v st m).map (fun e => e.event_id) =
      if m.event_id = s then st.map (fun e => e.event_id)
      else if m.event_id ∈ st.map (fun e => e.event_id) then
        st.map (fun e => e.event_id)
      else st.map (fun e => e.event_id) ++ [m.event_id] := by
  by_cases hms : m.event_id = s
  · simp [relStep, beq_iff_eq.2 hms, hms]
  · have hbeq : ¬ (m.event_id == s) = true := by simp [hms]
    rw [if_neg hms]
    simp only [relStep, if_neg hbeq]
    rw [keys_map_upd, keys_ensure]

theorem mem_keys_relStep (s v : String) (st : List RelEntry) (m : MispAttr)
    (eid : String) :
    eid ∈ (relStep s v st m).map (fun e => e.event_id) ↔
      eid ∈ st.map (fun e => e.event_id) ∨ (¬ eid = s ∧ m.event_id = eid) := by
  rw [keys_relStep]
  by_cases hms : m.event_id = s
  · rw [if_pos hms]
    constructor
    · exact Or.inl
    · rintro (h | ⟨hs, heq⟩)
      · exact h
      · exact absurd (heq ▸ hms : eid = s) hs
  · rw [if_neg hms]
    by_cases hp : m.event_id ∈ st.map (fun e => e.event_id)
    · rw [if_pos hp]
      constructor
      · exact Or.inl
      · rintro (h | ⟨hs, heq⟩)
        · exact h
        · exact heq ▸ hp
    · rw [if_neg hp]
      rw [List.mem_append, List.mem_singleton]
      constructor
      · rintro (h | rfl)
        · exact Or.inl h
        · exact Or.inr ⟨fun hc => hms hc, rfl⟩
      · rintro (h | ⟨hs, rfl⟩)
        · exact Or.inl h
        · exact Or.inr rfl

theorem mem_keys_runValue (s v : String) (ms : List MispAttr) :
    ∀ (st : List RelEntry) (eid : String),
      eid ∈ (runValue s v ms st).map (fun e => e.event_id) ↔
        eid ∈ st.map (fun e => e.event_id) ∨
          (¬ eid = s ∧ ∃ m ∈ ms, m.event_id = eid) := by
  induction ms with
  | nil => intro st eid; simp [runValue_nil]
  | cons m rest ih =>
      intro st eid
      rw [runValue_cons, ih, mem_keys_relStep]
      simp only [List.mem_cons]
      constructor
      · rintro ((h | ⟨hs, heq⟩) | ⟨hs, m2, hm2, heq⟩)
        · exact Or.inl h
        · exact Or.inr ⟨hs, m, Or.inl rfl, heq⟩
        · exact Or.inr ⟨hs, m2, Or.inr hm2, heq⟩
      · rintro (h | ⟨hs, m2, (rfl | hm2), heq⟩)
        · exact Or.inl (Or.inl h)
        · exact Or.inl (Or.inr ⟨hs, heq⟩)
        · exact Or.inr ⟨hs, m2, hm2, heq⟩

theorem mem_keys_runSearchLoop (s : String) (f : String → List MispAttr)
    (vs : List String) :
    ∀ (st : List RelEntry) (eid : String),
      eid ∈ (runSearchLoop s f vs st).map (fun e => e.event_id) ↔
        eid ∈ st.map (fun e => e.event_id) ∨
          (¬ eid = s ∧ ∃ v ∈ vs, ∃ m ∈ f v, m.event_id = eid) := by
  induction vs with
  | nil => intro st eid; simp [runSearchLoop_nil]
  | cons v rest ih =>
      intro st eid
      rw [runSearchLoop_cons, ih, mem_keys_runValue]
      simp only [List.mem_cons]
      constructor
      · rintro ((h | ⟨hs, m, hm, heq⟩) | ⟨hs, v2, hv2, m, hm, heq⟩)
        · exact Or.inl h
        · exact Or.inr ⟨hs, v, Or.inl rfl, m, hm, heq⟩
        · exact Or.inr ⟨hs, v2, Or.inr hv2, m, hm, heq⟩
      · rintro (h | ⟨hs, v2, (rfl | hv2), m, hm, heq⟩)
        · exact Or.inl (Or.inl h)
        · exact Or.inl (Or.inr ⟨hs, m, hm, heq⟩)
        · exact Or.inr ⟨hs, v2, hv2, m, hm, heq⟩

theorem keys_mapSet (st : List RelEntry) (x : RelEntry) :
    (mapSet st x).map (fun e => e.event_id) =
      if x.event_id ∈ st.map (fun e => e.event_id) then
        st.map (fun e => e.event_id)
      else st.map (fun e => e.event_id) ++ [x.event_id] := by
  by_cases h : x.event_id ∈ st.map (fun e => e.event_id)
  · rw [if_pos h]
    simp only [mapSet, (any_key_rel st x.event_id).2 h, if_true, List.map_map]
    apply List.map_congr_left
    intro z _
    by_cases hz : (z.event_id == x.event_id) = true
    · simp only [Function.comp, hz, if_true]
      exact (beq_iff_eq.1 hz).symm
    · simp only [Function.comp, hz, if_false]
      rfl
  · rw [if_neg h]
    have hany : ¬ st.any (fun z => z.event_id == x.event_id) = true :=
      fun hc => h ((any_key_rel st x.event_id).1 hc)
    simp only [mapSet, if_neg hany, List.map_append]
    rfl

theorem mem_keys_seed_fold (rels : List (String × String)) :
    ∀ (st : List RelEntry) (eid : String),
      eid ∈ (rels.foldl
          (fun st r => mapSet st
            { event_id := r.1, event_info := r.2,
              overlapping_iocs := [], correlation_count := 0 }) st).map
          (fun e => e.event_id) ↔
        eid ∈ st.map (fun e => e.event_id) ∨ ∃ r ∈ rels, r.1 = eid := by
  induction rels with
  | nil => intro st eid; simp
  | cons r rest ih =>
      intro st eid
      rw [List.foldl_cons, ih, keys_mapSet]
      simp only [List.mem_cons]
      by_cases h : r.1 ∈ st.map (fun e => e.event_id)
      · rw [if_pos h]
        constructor
        · rintro (hm | ⟨r2, hr2, heq⟩)
          · exact Or.inl hm
          · exact Or.inr ⟨r2, Or.inr hr2, heq⟩
        · rintro (hm | ⟨r2, (rfl | hr2), heq⟩)
          · exact Or.inl hm
          · exact Or.inl (heq ▸ h)
          · exact Or.inr ⟨r2, hr2, heq⟩
      · rw [if_neg h]
        simp only [List.mem_append, List.mem_singleton]
        constructor
        · rintro ((hm | rfl) | ⟨r2, hr2, heq⟩)
          · exact Or.inl hm
          · exact Or.inr ⟨r, Or.inl rfl, rfl⟩
          · exact Or.inr ⟨r2, Or.inr hr2, heq⟩
        · rintro (hm | ⟨r2, (rfl | hr2), heq⟩)
          · exact Or.inl (Or.inl hm)
          · exact Or.inl (Or.inr heq.symm)
          · exact Or.inr ⟨r2, hr2, heq⟩

theorem mem_keys_seed (rels : List (String × String)) (eid : String) :
    eid ∈ (seedRelated rels).map (fun e => e.event_id) ↔
      ∃ r ∈ rels, r.1 = eid := by
  have h := mem_keys_seed_fold rels [] eid
  simpa [seedRelated] using h

theorem keys_nodup_mapSet (st : List RelEntry) (x : RelEntry)
    (h : (st.map (fun e => e.event_id)).Nodup) :
    ((mapSet st x).map (fun e => e.event_id)).Nodup := by
  rw [keys_mapSet]
  by_cases hp : x.event_id ∈ st.map (fun e => e.event_id)
  · rw [if_pos hp]; exact h
  · rw [if_neg hp]; exact nodup_append_singleton h hp

theorem keys_nodup_seed_fold (rels : List (String × String)) :
    ∀ st : List RelEntry, (st.map (fun e => e.event_id)).Nodup →
      ((rels.foldl
          (fun st r => mapSet st
            { event_id := r.1, event_info := r.2,
              overlapping_iocs := [], correlation_count := 0 }) st).map
          (fun e => e.event_id)).Nodup := by
  induction rels with
  | nil => intro st h; exact h
  | cons r rest ih =>
      intro st h
      exact ih _ (keys_nodup_mapSet st _ h)

theorem keys_nodup_seed (rels : List (String × String)) :
    ((seedRelated rels).map (fun e => e.event_id)).Nodup :=
  keys_nodup_seed_fold rels [] List.nodup_nil

theorem keys_nodup_relStep (s v : String) (st : List RelEntry) (m : MispAttr)
    (h : (st.map (fun e => e.event_id)).Nodup) :
    ((relStep s v st m).map (fun e => e.event_id)).Nodup := by
  rw [keys_relStep]
  by_cases hms : m.event_id = s
  · rw [if_pos hms]; exact h
  · rw [if_neg hms]
    by_cases hp : m.event_id ∈ st.map (fun e => e.event_id)
    · rw [if_pos hp]; exact h
    · rw [if_neg hp]; exact nodup_append_singleton h hp

theorem keys_nodup_runValue (s v : String) (ms : List MispAttr) :
    ∀ st : List RelEntry, (st.map (fun e => e.event_id)).Nodup →
      ((runValue s v ms st).map (fun e => e.event_id)).Nodup := by
  induction ms with
  | nil => intro st h; exact h
  | cons m rest ih =>
      intro st h
      rw [runValue_cons]
      exact ih _ (keys_nodup_relStep s v st m h)

theorem keys_nodup_runSearchLoop (s : String) (f : String → List MispAttr)
    (vs : List String) :
    ∀ st : List RelEntry, (st.map (fun e => e.event_id)).Nodup →
      ((runSearchLoop s f vs st).map (fun e => e.event_id)).Nodup := by
  induction vs with
  | nil => intro st h; exact h
  | cons v rest ih =>
      intro st h
      rw [runSearchLoop_cons]
      exact ih _ (keys_nodup_runValue s v (f v) st h)

theorem ensure_mem (st : List RelEntry) (m : MispAttr) (y : RelEntry)
    (hy : y ∈ ensureEntry st m) : y ∈ st ∨ y = freshEntry m := by
  unfold ensureEntry at hy
  by_cases hpres : st.any (fun x => x.event_id == m.event_id) = true
  · rw [if_pos hpres] at hy; exact Or.inl hy
  · rw [if_neg hpres] at hy
    rcases List.mem_append.1 hy with hy | hy
    · exact Or.inl hy
    · exact Or.inr (List.mem_singleton.1 hy)

theorem updEntry_iocs (v mid : String) (e : RelEntry)
    (h : e.overlapping_iocs.Nodup) : (updEntry v mid e).overlapping_iocs.Nodup := by
  unfold updEntry
  by_cases hk : (e.event_id == mid) = true
  · rw [if_pos hk]
    dsimp only
    by_cases hv : v ∈ e.overlapping_iocs
    · rw [if_pos hv]; exact h
    · rw [if_neg hv]; exact nodup_append_singleton h hv
  · rw [if_neg hk]; exact h

theorem iocs_nodup_relStep (s v : String) (st : List RelEntry) (m : MispAttr)
    (h : ∀ e ∈ st, e.overlapping_iocs.Nodup) :
    ∀ e ∈ relStep s v st m, e.overlapping_iocs.Nodup := by
  intro e he
  unfold relStep at he
  by_cases hms : (m.event_id == s) = true
  · rw [if_pos hms] at he; exact h e he
  · rw [if_neg hms] at he
    rcases List.mem_map.1 he with ⟨e0, he0, rfl⟩
    rcases ensure_mem st m e0 he0 with he0m | rfl
    · exact updEntry_iocs _ _ _ (h e0 he0m)
    · exact updEntry_iocs _ _ _ (by simp [freshEntry])

theorem iocs_nodup_runValue (s v : String) (ms : List MispAttr) :
    ∀ st : List RelEntry, (∀ e ∈ st, e.overlapping_iocs.Nodup) →
      ∀ e ∈ runValue s v ms st, e.overlapping_iocs.Nodup := by
  induction ms with
  | nil => intro st h; exact h
  | cons m rest ih =>
      intro st h
      rw [runValue_cons]
      exact ih _ (iocs_nodup_relStep s v st m h)

theorem iocs_nodup_runSearchLoop (s : String) (f : String → List MispAttr)
    (vs : List String) :
    ∀ st : List RelEntry, (∀ e ∈ st, e.overlapping_iocs.Nodup) →
      ∀ e ∈ runSearchLoop s f vs st, e.overlapping_iocs.Nodup := by
  induction vs with
  | nil => intro st h; exact h
  | cons v rest ih =>
      intro st h
      rw [runSearchLoop_cons]
      exact ih _ (iocs_nodup_runValue s v (f v) st h)

theorem lookup_of_mem (st : List RelEntry)
    (hnd : (st.map (fun e => e.event_id)).Nodup) :
    ∀ e ∈ st, lookupCount st e.event_id = e.correlation_count := by
  induction st with
  | nil => intro e he; cases he
  | cons x xs ih =>
      simp only [List.map_cons, List.nodup_cons] at hnd
      intro e he
      rcases List.mem_cons.1 he with rfl | he'
      · have hc : (e.event_id == e.event_id) = true := beq_self_eq_true _
        simp [lookupCount, List.find?_cons, hc]
      · have hxk : ¬ x.event_id = e.event_id := by
          intro hc
          exact hnd.1 (hc ▸ List.mem_map.2 ⟨e, he', rfl⟩)
        have hx : (x.event_id == e.event_id) = false := by
          rw [beq_eq_false_iff_ne]; exact hxk
        simp only [lookupCount, List.find?_cons, hx]
        exact ih hnd.2 e he'

/-- C2: after the fan-out search loop of `misp_get_related_events` (run on
the seed map built from the source event's back-references), every
candidate entry's `overlapping_iocs` holds each searched value at most
once (no duplicates), every entry's `correlation_count` equals the number
of matching-attribute occurrences for its event across all searched values
(occurrence-based, zero for the source event id), and an event id has an
entry exactly when it was seeded from a back-reference or some searched
value has a match in that event with the source event excluded — so
matches belonging to the source event never create or modify an entry. -/
theorem related_map_spec (sourceId : String) (rels : List (String × String))
    (values : List String) (search : String → List MispAttr) :
    (∀ e ∈ runSearchLoop sourceId search values (seedRelated rels),
        e.overlapping_iocs.Nodup) ∧
    (∀ e ∈ runSearchLoop sourceId search values (seedRelated rels),
        e.correlation_count = occCount e.event_id sourceId values search) ∧
    (∀ eid,
        eid ∈ (runSearchLoop sourceId search values (seedRelated rels)).map
            (fun e => e.event_id) ↔
          (∃ r ∈ rels, r.1 = eid) ∨
            (¬ eid = sourceId ∧ ∃ v ∈ values, ∃ m ∈ search v, m.event_id = eid)) := by
  have hndk : ((runSearchLoop sourceId search values (seedRelated rels)).map
      (fun e => e.event_id)).Nodup :=
    keys_nodup_runSearchLoop _ _ _ _ (keys_nodup_seed rels)
  refine ⟨?_, ?_, ?_⟩
  · exact iocs_nodup_runSearchLoop _ _ _ _
      (fun e he => by simp [(seed_zero rels e he).2])
  · intro e he
    have h1 := lookup_of_mem _ hndk e he
    have h2 := runSearchLoop_count sourceId search values (seedRelated rels)
      e.event_id
    rw [lookupCount_seed] at h2
    rw [← h1, h2]
    simp [occCount]
  · intro eid
    rw [mem_keys_runSearchLoop, mem_keys_seed]

/-- Witness for C2: in the spec's `findRelated` scenario (source event 42,
one searched value matching one attribute of event 43) the candidate entry
for event 43 satisfies the membership hypothesis and its count equals the
occurrence count. -/
theorem related_map_spec_witness :
    wEntry.correlation_count = occCount wEntry.event_id "42" ["evil.com"] wSearch :=
  (related_map_spec "42" [] ["evil.com"] wSearch).2.1 wEntry (by decide)

/-- C4: the candidate list returned by event-relation discovery is sorted
in descending order of `correlation_count`, is a permutation of the
discovery-ordered candidate map, and for every count value the candidates
holding that count keep their relative discovery order (stability): the
filtered subsequence at each count is unchanged by the sort. -/
theorem related_sort_stable (sourceId : String) (rels : List (String × String))
    (eventAttributes : List MispAttr) (search : String → List MispAttr) :
    (relatedEvents sourceId rels eventAttributes search).Pairwise
      (fun a b => b.correlation_count ≤ a.correlation_count) ∧
    List.Perm (relatedEvents sourceId rels eventAttributes search)
      (runSearchLoop sourceId search (valuesToSearch eventAttributes)
        (seedRelated rels)) ∧
    ∀ c, (relatedEvents sourceId rels eventAttributes search).filter
          (fun x => x.correlation_count == c) =
        (runSearchLoop sourceId search (valuesToSearch eventAttributes)
          (seedRelated rels)).filter (fun x => x.correlation_count == c) :=
  ⟨sortByCountDesc_sorted _, sortByCountDesc_perm _,
    fun c => sortByCountDesc_filter _ c⟩

/-! ## Theorems: bulk executor (C5, C9) -/

theorem bulkResults_eq (units : List BulkUnit) :
    bulkResults units = units.map bulkItemResult := by
  suffices h : ∀ acc, units.foldl (fun acc u => acc ++ [bulkItemResult u]) acc =
      acc ++ units.map bulkItemResult by
    simpa [bulkResults] using h []
  induction units with
  | nil => simp
  | cons u rest ih => intro acc; simp [ih, List.append_assoc]

theorem itemTruthyId (u : BulkUnit) :
    isTruthy (bulkItemResult u).id = unitSucceedsTruthy u := by
  cases h : u.outcome <;> simp [bulkItemResult, isTruthy, unitSucceedsTruthy, h]

theorem itemTruthyErr (u : BulkUnit) :
    isTruthy (bulkItemResult u).error = unitFailsTruthy u := by
  cases h : u.outcome <;> simp [bulkItemResult, isTruthy, unitFailsTruthy, h]

theorem length_filter_map_units (p : BulkItemResult → Bool) (q : BulkUnit → Bool)
    (hpq : ∀ u, p (bulkItemResult u) = q u) :
    ∀ units : List BulkUnit,
      ((units.map bulkItemResult).filter p).length = (units.filter q).length := by
  intro units
  induction units with
  | nil => rfl
  | cons u rest ih =>
      simp only [List.map_cons, List.filter_cons, hpq u]
      cases hq : q u <;> simp [ih]

theorem units_not_both (u : BulkUnit) :
    ¬ (unitSucceedsTruthy u = true ∧ unitFailsTruthy u = true) := by
  cases h : u.outcome <;> simp [unitSucceedsTruthy, unitFailsTruthy, h]

theorem filter_two_le (units : List BulkUnit) :
    (units.filter unitSucceedsTruthy).length +
      (units.filter unitFailsTruthy).length ≤ units.length := by
  induction units with
  | nil => simp
  | cons u rest ih =>
      simp only [List.filter_cons]
      split
      · split
        · rename_i hs hf
          exact absurd ⟨hs, hf⟩ (units_not_both u)
        · simp only [List.length_cons]; omega
      · split
        · simp only [List.length_cons]; omega
        · simp only [List.length_cons]; omega

theorem filter_two_lt (units : List BulkUnit)
    (h : ∃ u ∈ units, unitSucceedsTruthy u = false ∧ unitFailsTruthy u = false) :
    (units.filter unitSucceedsTruthy).length +
      (units.filter unitFailsTruthy).length < units.length := by
  induction units with
  | nil => obtain ⟨u, hu, _⟩ := h; cases hu
  | cons u rest ih =>
      obtain ⟨w, hw, hws, hwf⟩ := h
      rcases List.mem_cons.1 hw with rfl | hw'
      · simp only [List.filter_cons, hws, hwf]
        exact Nat.lt_succ_of_le (filter_two_le rest)
      · have hlt := ih ⟨w, hw', hws, hwf⟩
        simp only [List.filter_cons]
        split
        · split
          · rename_i hs hf
            exact absurd ⟨hs, hf⟩ (units_not_both u)
          · simp only [List.length_cons]; omega
        · split
          · simp only [List.length_cons]; omega
          · simp only [List.length_cons]; omega

theorem bulk_succeeded_char (units : List BulkUnit) :
    (bulkReport units).succeeded = (units.filter unitSucceedsTruthy).length := by
  show ((bulkResults units).filter (fun r => isTruthy r.id)).length = _
  rw [bulkResults_eq]
  exact length_filter_map_units _ _ itemTruthyId units

theorem bulk_failed_char (units : List BulkUnit) :
    (bulkReport units).failed = (units.filter unitFailsTruthy).length := by
  show ((bulkResults units).filter (fun r => isTruthy r.error)).length = _
  rw [bulkResults_eq]
  exact length_filter_map_units _ _ itemTruthyErr units

/-- C9: the bulk executor counts a unit as succeeded exactly when its
remote create returned a truthy (non-empty) id, and as failed exactly
when it threw with a truthy message; hence succeeded + failed never
exceeds total, and a unit that succeeds with an empty id makes the sum
strictly smaller — equality is not guaranteed then. -/
theorem bulk_truthy_tally (units : List BulkUnit) :
    (bulkReport units).succeeded = (units.filter unitSucceedsTruthy).length ∧
    (bulkReport units).failed = (units.filter unitFailsTruthy).length ∧
    (bulkReport units).succeeded + (bulkReport units).failed ≤
      (bulkReport units).total ∧
    ((∃ u ∈ units, u.outcome = Except.ok "") →
      (bulkReport units).succeeded + (bulkReport units).failed <
        (bulkReport units).total) := by
  have hs := bulk_succeeded_char units
  have hf := bulk_failed_char units
  refine ⟨hs, hf, ?_, ?_⟩
  · rw [hs, hf]; exact filter_two_le units
  · intro hex
    rw [hs, hf]
    obtain ⟨u, hu, hout⟩ := hex
    refine filter_two_lt units ⟨u, hu, ?_, ?_⟩
    · simp [unitSucceedsTruthy, hout]
    · simp [unitFailsTruthy, hout]

/-- Witness for C9: a batch whose single unit succeeds with an empty id
has succeeded + failed strictly below total. -/
theorem bulk_truthy_tally_witness :
    (bulkReport [⟨"ip-src", "1.2.3.4", Except.ok ""⟩]).succeeded +
        (bulkReport [⟨"ip-src", "1.2.3.4", Except.ok ""⟩]).failed <
      (bulkReport [⟨"ip-src", "1.2.3.4", Except.ok ""⟩]).total :=
  (bulk_truthy_tally [⟨"ip-src", "1.2.3.4", Except.ok ""⟩]).2.2.2
    ⟨⟨"ip-src", "1.2.3.4", Except.ok ""⟩, List.mem_singleton.2 rfl, rfl⟩

/-- Counterexample to C5 as stated: a batch of one unit whose remote call
does not throw (k = 0) but returns an empty id yields succeeded = 0, not
N − k = 1. -/
theorem bulk_counts_cex :
    (bulkReport [⟨"ip-src", "1.2.3.4", Except.ok ""⟩]).total = 1 ∧
    isFailure (Except.ok "" : Except String String) = false ∧
    (bulkReport [⟨"ip-src", "1.2.3.4", Except.ok ""⟩]).succeeded = 0 ∧
    (bulkReport [⟨"ip-src", "1.2.3.4", Except.ok ""⟩]).failed = 0 := by
  decide

theorem filter_not_isFailure (units : List BulkUnit) :
    (units.filter (fun u => !(isFailure u.outcome))).length +
      (units.filter (fun u => isFailure u.outcome)).length = units.length := by
  induction units with
  | nil => rfl
  | cons u rest ih =>
      simp only [List.filter_cons]
      cases hf : isFailure u.outcome <;> simp <;> omega

/-- C5 (amended): the bulk executor runs every unit sequentially — a
failure neither aborts nor skips later units, each unit contributing its
row in the original input order — and returns total = N; when every
non-throwing unit's create returns a non-empty id and every thrown error
carries a non-empty message, it moreover returns failed = k (the number
of throwing units) and succeeded = N − k. -/
theorem bulk_executor_spec (units : List BulkUnit)
    (h : ∀ u ∈ units, (unitSucceedsTruthy u || unitFailsTruthy u) = true) :
    (bulkReport units).total = units.length ∧
    (bulkReport units).results = units.map bulkItemResult ∧
    (bulkReport units).failed =
      (units.filter (fun u => isFailure u.outcome)).length ∧
    (bulkReport units).succeeded =
      units.length - (units.filter (fun u => isFailure u.outcome)).length := by
  have hcongr_f : units.filter unitFailsTruthy =
      units.filter (fun u => isFailure u.outcome) := by
    apply List.filter_congr
    intro u hu
    have hor := h u hu
    cases hout : u.outcome with
    | ok i => simp [unitFailsTruthy, isFailure, hout]
    | error e =>
        simp only [unitSucceedsTruthy, unitFailsTruthy, hout,
          Bool.false_or] at hor
        simp [unitFailsTruthy, isFailure, hout, hor]
  have hcongr_s : units.filter unitSucceedsTruthy =
      units.filter (fun u => !(isFailure u.outcome)) := by
    apply List.filter_congr
    intro u hu
    have hor := h u hu
    cases hout : u.outcome with
    | ok i =>
        simp only [unitSucceedsTruthy, unitFailsTruthy, hout,
          Bool.or_false] at hor
        simp [unitSucceedsTruthy, isFailure, hout, hor]
    | error e => simp [unitSucceedsTruthy, isFailure, hout]
  have hs := bulk_succeeded_char units
  have hf := bulk_failed_char units
  refine ⟨rfl, bulkResults_eq units, ?_, ?_⟩
  · rw [hf, hcongr_f]
  · rw [hs, hcongr_s]
    have hsplit := filter_not_isFailure units
    omega

/-- Witness for C5: a two-unit batch (one success with id, one throw with
message) satisfies the hypothesis and reports failed = k = 1. -/
theorem bulk_executor_spec_witness :
    (bulkReport [⟨"ip-src", "8.8.8.8", Except.ok "101"⟩,
        ⟨"domain", "bad.com", Except.error "boom"⟩]).failed =
      ([(⟨"ip-src", "8.8.8.8", Except.ok "101"⟩ : BulkUnit),
        ⟨"domain", "bad.com", Except.error "boom"⟩].filter
          (fun u => isFailure u.outcome)).length :=
  (bulk_executor_spec
    [⟨"ip-src", "8.8.8.8", Except.ok "101"⟩,
     ⟨"domain", "bad.com", Except.error "boom"⟩] (by decide)).2.2.1

/-! ## Theorems: create-then-tag pipelines (C6) -/

theorem tagLoop_all_ok (mk : String → ClientCall)
    (res : String → Except String Unit) :
    ∀ tags : List String, (∀ t ∈ tags, res t = Except.ok ()) →
      tagLoop mk res tags = (tags.map mk, none) := by
  intro tags
  induction tags with
  | nil => intro _; rfl
  | cons t ts ih =>
      intro h
      have ht : res t = Except.ok () := h t (List.mem_cons_self t ts)
      have hrest := ih (fun t2 ht2 => h t2 (List.mem_cons_of_mem t ht2))
      simp [tagLoop, ht, hrest]

theorem tagLoop_first_fail (mk : String → ClientCall)
    (res : String → Except String Unit) :
    ∀ (p : List String) (t : String) (rest : List String) (e : String),
      (∀ t2 ∈ p, res t2 = Except.ok ()) → res t = Except.error e →
      tagLoop mk res (p ++ t :: rest) = ((p ++ [t]).map mk, some e) := by
  intro p
  induction p with
  | nil =>
      intro t rest e _ ht
      simp [tagLoop, ht]
  | cons q qs ih =>
      intro t rest e hp ht
      have hq : res q = Except.ok () := hp q (List.mem_cons_self q qs)
      have hrest := ih t rest e (fun x hx => hp x (List.mem_cons_of_mem q hx)) ht
      simp [tagLoop, hq, hrest]

/-- Counterexample to C6 as stated: (i) creating an attribute with one
initial tag whose tag call succeeds issues no refetch at all — the trace
is exactly the create call and the tag call, with no get call — and the
original create response is returned; (ii) creating an event with two
tags where the first tag call fails issues no further tag call and no
refetch, and the failure propagates instead of the re-fetched entity
being returned. -/
theorem create_tag_refetch_cex :
    addAttributeCalls "42" ["tlp:white"] (Except.ok { id := "7" })
        (fun _ _ => Except.ok ()) =
      ([ClientCall.addAttribute "42", ClientCall.attrTag "7" "tlp:white"],
       Except.ok { id := "7" }) ∧
    createEventCalls ["a", "b"] (Except.ok { id := "5", info := "x" })
        (fun _ t => if t = "a" then Except.error "tag failed" else Except.ok ())
        (fun i => Except.ok { id := i, info := "x" }) =
      ([ClientCall.createEvent, ClientCall.tagEvent "5" "a"],
       Except.error "tag failed") := by
  decide

/-- C6 (amended): after a successful create, tags (when requested and the
created entity carries a truthy id) are applied with one sequential call
per tag, stopping at the first failing tag call, whose failure propagates
with no refetch; when every tag call succeeds, `createEvent` re-fetches
the event exactly once and returns the re-fetched representation, while
`addAttribute` issues no refetch and returns the original create
response; with no tags requested, the original create response is
returned directly with no tag calls and no refetch. -/
theorem create_tag_pipeline (tags : List String) (eventId : String)
    (ev : EventLite) (attr : AttrLite)
    (tagResE tagResA : String → String → Except String Unit)
    (fetchRes : String → Except String EventLite) :
    (createEventCalls [] (Except.ok ev) tagResE fetchRes =
        ([ClientCall.createEvent], Except.ok ev)) ∧
    (addAttributeCalls eventId [] (Except.ok attr) tagResA =
        ([ClientCall.addAttribute eventId], Except.ok attr)) ∧
    (¬ tags.isEmpty = true → ¬ ev.id = "" →
      (∀ t ∈ tags, tagResE ev.id t = Except.ok ()) →
      createEventCalls tags (Except.ok ev) tagResE fetchRes =
        (ClientCall.createEvent ::
            tags.map (fun t => ClientCall.tagEvent ev.id t) ++
            [ClientCall.getEvent ev.id],
         fetchRes ev.id)) ∧
    (¬ tags.isEmpty = true → ¬ attr.id = "" →
      (∀ t ∈ tags, tagResA attr.id t = Except.ok ()) →
      addAttributeCalls eventId tags (Except.ok attr) tagResA =
        (ClientCall.addAttribute eventId ::
            tags.map (fun t => ClientCall.attrTag attr.id t),
         Except.ok attr)) ∧
    (∀ (p : List String) (t : String) (rest : List String) (e : String),
      tags = p ++ t :: rest → ¬ ev.id = "" →
      (∀ t2 ∈ p, tagResE ev.id t2 = Except.ok ()) →
      tagResE ev.id t = Except.error e →
      createEventCalls tags (Except.ok ev) tagResE fetchRes =
        (ClientCall.createEvent ::
            (p ++ [t]).map (fun t2 => ClientCall.tagEvent ev.id t2),
         Except.error e)) ∧
    (∀ (p : List String) (t : String) (rest : List String) (e : String),
      tags = p ++ t :: rest → ¬ attr.id = "" →
      (∀ t2 ∈ p, tagResA attr.id t2 = Except.ok ()) →
      tagResA attr.id t = Except.error e →
      addAttributeCalls eventId tags (Except.ok attr) tagResA =
        (ClientCall.addAttribute eventId ::
            (p ++ [t]).map (fun t2 => ClientCall.attrTag attr.id t2),
         Except.error e)) := by
  refine ⟨?_, ?_, ?_, ?_, ?_, ?_⟩
  · simp [createEventCalls]
  · simp [addAttributeCalls]
  · intro hne hid hok
    have hcond : ¬ tags.isEmpty = true ∧ ¬ ev.id = "" := ⟨hne, hid⟩
    simp only [createEventCalls, if_pos hcond]
    rw [tagLoop_all_ok _ _ tags hok]
  · intro hne hid hok
    have hcond : ¬ tags.isEmpty = true ∧ ¬ attr.id = "" := ⟨hne, hid⟩
    simp only [addAttributeCalls, if_pos hcond]
    rw [tagLoop_all_ok _ _ tags hok]
  · intro p t rest e htags hid hp ht
    subst htags
    have hne : ¬ (p ++ t :: rest).isEmpty = true := by
      simp [List.isEmpty_iff]
    have hcond : ¬ (p ++ t :: rest).isEmpty = true ∧ ¬ ev.id = "" := ⟨hne, hid⟩
    simp only [createEventCalls, if_pos hcond]
    rw [tagLoop_first_fail _ _ p t rest e hp ht]
  · intro p t rest e htags hid hp ht
    subst htags
    have hne : ¬ (p ++ t :: rest).isEmpty = true := by
      simp [List.isEmpty_iff]
    have hcond : ¬ (p ++ t :: rest).isEmpty = true ∧ ¬ attr.id = "" := ⟨hne, hid⟩
    simp only [addAttributeCalls, if_pos hcond]
    rw [tagLoop_first_fail _ _ p t rest e hp ht]

/-- Witness for C6: with two tags, a truthy event id and all tag calls
succeeding, `createEvent` issues create, both tag calls, then one
refetch, and returns the refetched event. -/
theorem create_tag_pipeline_witness :
    createEventCalls ["tlp:white", "tlp:green"]
        (Except.ok { id := "5", info := "x" })
        (fun _ _ => Except.ok ()) (fun i => Except.ok { id := i, info := "x" }) =
      (ClientCall.createEvent ::
          ["tlp:white", "tlp:green"].map (fun t => ClientCall.tagEvent "5" t) ++
          [ClientCall.getEvent "5"],
       Except.ok { id := "5", info := "x" }) :=
  (create_tag_pipeline ["tlp:white", "tlp:green"] "5"
      { id := "5", info := "x" } { id := "7" }
      (fun _ _ => Except.ok ()) (fun _ _ => Except.ok ())
      (fun i => Except.ok { id := i, info := "x" })).2.2.1
    (by decide) (by decide) (fun t _ => rfl)

/-! ## Theorems: gateway failure classification (C7, C8) -/

/-- C7: a gateway call whose transport outcome is the timeout-triggered
abort fails with the `timeout` classification carrying the configured
duration — in both the JSON and the raw-text overloads — while a
non-timeout network-level failure fails with the `transport`
classification carrying the cause text; the two classifications are
distinct constructors, so a timeout is never reported as a transport
failure. -/
theorem request_timeout_class (timeoutMs : Nat) (parse : String → Option Js) :
    requestJson timeoutMs parse TransportOutcome.aborted =
      Except.error (MispError.timeout timeoutMs) ∧
    requestRaw timeoutMs parse TransportOutcome.aborted =
      Except.error (MispError.timeout timeoutMs) ∧
    (∀ msg, requestJson timeoutMs parse (TransportOutcome.netError msg) =
      Except.error (MispError.transport ("MISP API request failed: " ++ msg))) ∧
    (∀ msg, requestRaw timeoutMs parse (TransportOutcome.netError msg) =
      Except.error (MispError.transport ("MISP API request failed: " ++ msg))) ∧
    (∀ (ms : Nat) (msg : String),
      ¬ MispError.timeout ms = MispError.transport msg) := by
  refine ⟨rfl, rfl, fun _ => rfl, fun _ => rfl, ?_⟩
  intro ms msg h
  cases h

/-- Witness for C7 at the default 30s timeout: the aborted outcome is
classified as a timeout carrying 30000. -/
theorem request_timeout_class_witness :
    requestJson 30000 parseEmptyObj TransportOutcome.aborted =
      Except.error (MispError.timeout 30000) :=
  (request_timeout_class 30000 parseEmptyObj).1

/-- Counterexample to C8 as stated: a 2xx response whose body parses as
JSON but lacks the expected shape (an object without `response`) is
returned by `searchEvents` as an empty success, not a
malformed-response failure. -/
theorem searchEvents_empty_success_cex :
    searchEvents 30000 parseEmptyObj (TransportOutcome.success 200 "{}") =
      Except.ok [] := rfl

/-- C8 (amended): a 2xx response whose body is not valid JSON fails with
the `malformed` classification and is never returned as a success — but
the shape of a successfully parsed body is not checked: `searchEvents`
silently returns the empty result list whenever the parsed body has no
`response` property. -/
theorem request_malformed_spec (timeoutMs : Nat) (parse : String → Option Js)
    (status : Nat) (body : String)
    (h2 : 200 ≤ status ∧ status ≤ 299) (hp : parse body = none) :
    requestJson timeoutMs parse (TransportOutcome.success status body) =
      Except.error (MispError.malformed (body.take 200)) ∧
    (∀ j, ¬ requestJson timeoutMs parse (TransportOutcome.success status body) =
      Except.ok j) ∧
    (∀ data, jsGet data "response" = none →
      searchEventsExtract data = Except.ok []) := by
  have h1 : requestJson timeoutMs parse (TransportOutcome.success status body) =
      Except.error (MispError.malformed (body.take 200)) := by
    simp [requestJson, if_pos h2, hp]
  refine ⟨h1, ?_, ?_⟩
  · intro j hc
    rw [h1] at hc
    cases hc
  · intro data hd
    simp [searchEventsExtract, hd]

/-- Witness for C8: a 200 response whose body `x` fails to parse is
classified as malformed. -/
theorem request_malformed_spec_witness :
    requestJson 30000 parseEmptyObj (TransportOutcome.success 200 "x") =
      Except.error (MispError.malformed ("x".take 200)) :=
  (request_malformed_spec 30000 parseEmptyObj 200 "x" (by decide) rfl).1

/-! ## Theorems: default search limit (C10) -/

/-- C10: `searchAttributes` sends `limit = 50` whenever the caller passes
no explicit limit — in particular for the single search `misp_correlate`
issues and for each per-value search `misp_get_related_events` issues —
and sends the caller's limit otherwise. -/
theorem search_limit_default (v : String) :
    (buildAttrSearchBody (correlateSearchParams v)).limit = 50 ∧
    (buildAttrSearchBody (relatedSearchParams v)).limit = 50 ∧
    (∀ p : AttrSearchParams, p.limit = none →
      (buildAttrSearchBody p).limit = 50) ∧
    (∀ (p : AttrSearchParams) (n : Nat), p.limit = some n →
      (buildAttrSearchBody p).limit = n) := by
  refine ⟨rfl, rfl, ?_, ?_⟩
  · intro p hp
    simp [buildAttrSearchBody, hp]
  · intro p n hp
    simp [buildAttrSearchBody, hp]

/-- Witness for C10: the body built for the correlate search carries the
default limit 50. -/
theorem search_limit_default_witness :
    (buildAttrSearchBody (correlateSearchParams "10.0.0.1")).limit = 50 :=
  (search_limit_default "10.0.0.1").2.2.1 (correlateSearchParams "10.0.0.1") rfl

end MispMcp
